import Mathlib

/-!
Verification of the MEV opportunity detection and risk-scoring engine
(`src/ai-agents/mev_analyzer.py`).

Embedding conventions:
* Python floats are modelled as exact rationals (`ℚ`); `min(x, c)` becomes
  `min x c` on `ℚ` (a total order with no NaN, matching all finite inputs).
* Timestamps (`datetime`) are rationals measured in seconds; calls to
  `datetime.now()` become an explicit `now : ℚ` parameter; `timedelta(minutes=5)`
  is `300`.
* Integers (`block_number`) are `ℤ`; pool ids, MEV type tags and transaction
  hashes are `String`s as in the source.
* Fallible stages are modelled with explicit failure oracles; Python's in-place
  mutation of `MEVOpportunity` dataclass instances is modelled by explicit
  state passing of lists of records.
-/

namespace MEVShield

/-- Market data snapshot for one pool — dataclass `MarketData`
(mev_analyzer.py, lines 66-84). -/
structure MarketData where
  token0_price : ℚ
  token1_price : ℚ
  volume_24h : ℚ
  liquidity : ℚ
  price_impact : ℚ
  volatility : ℚ
  deriving Repr, DecidableEq

/-- A detected MEV opportunity — dataclass `MEVOpportunity`
(mev_analyzer.py, lines 42-64). -/
structure MEVOpportunity where
  pool_id : String
  mev_type : String
  estimated_value : ℚ
  risk_score : ℚ
  confidence : ℚ
  timestamp : ℚ
  block_number : ℤ
  transaction_hash : Option String
  deriving Repr, DecidableEq

/-- Inbound alert message — model `MEVAlert` (mev_analyzer.py, lines 248-255). -/
structure MEVAlert where
  pool_id : String
  mev_type : String
  estimated_value : ℚ
  risk_score : ℚ
  block_number : ℤ
  transaction_hash : Option String
  deriving Repr, DecidableEq

/-- Arbitrage detection — method `_detect_arbitrage`
(mev_analyzer.py, lines 349-382).  The Python guard
`data.token0_price / data.token1_price if data.token1_price > 0 else 0`
becomes the `if` on the first line; `datetime.now()` is the `now` parameter. -/
def detect_arbitrage (pool_id : String) (data : MarketData) (block_number : ℤ)
    (now : ℚ) : Option MEVOpportunity :=
  let price_ratio : ℚ :=
    if data.token1_price > 0 then data.token0_price / data.token1_price else 0
  let expected_ratio : ℚ := 2000
  let deviation : ℚ := |price_ratio - expected_ratio| / expected_ratio
  if deviation > 0.01 then
    some { pool_id := pool_id
           mev_type := "arbitrage"
           estimated_value := min (data.liquidity * deviation * 0.1) 10
           risk_score := min (deviation * 10) 1
           confidence := 0.85
           timestamp := now
           block_number := block_number
           transaction_hash := none }
  else
    none

/-- Sandwich attack detection — method `_detect_sandwich_attack`
(mev_analyzer.py, lines 384-412). -/
def detect_sandwich_attack (pool_id : String) (data : MarketData)
    (block_number : ℤ) (now : ℚ) : Option MEVOpportunity :=
  if data.price_impact > 0.3 ∧ data.liquidity < 1000000 then
    let estimated_value : ℚ := data.volume_24h * 0.001 * data.price_impact
    let risk_score : ℚ := (data.price_impact + (1 - data.liquidity / 10000000)) / 2
    some { pool_id := pool_id
           mev_type := "sandwich"
           estimated_value := min estimated_value 5
           risk_score := min risk_score 1
           confidence := 0.75
           timestamp := now
           block_number := block_number
           transaction_hash := none }
  else
    none

/-- Liquidation detection — method `_detect_liquidation`
(mev_analyzer.py, lines 414-441). -/
def detect_liquidation (pool_id : String) (data : MarketData)
    (block_number : ℤ) (now : ℚ) : Option MEVOpportunity :=
  if data.volatility > 0.6 then
    let estimated_value : ℚ := data.volatility * 2
    let risk_score : ℚ := data.volatility
    some { pool_id := pool_id
           mev_type := "liquidation"
           estimated_value := min estimated_value 3
           risk_score := min risk_score 1
           confidence := 0.65
           timestamp := now
           block_number := block_number
           transaction_hash := none }
  else
    none

/-- Per-pool detection loop — method `_detect_mev_opportunities`
(mev_analyzer.py, lines 313-347): each of the three detectors contributes
zero-or-one opportunity per pool, in arbitrage/sandwich/liquidation order. -/
def detect_mev_opportunities (market_data : List (String × MarketData))
    (block_number : ℤ) (now : ℚ) : List MEVOpportunity :=
  market_data.flatMap fun p =>
    (detect_arbitrage p.1 p.2 block_number now).toList ++
    (detect_sandwich_attack p.1 p.2 block_number now).toList ++
    (detect_liquidation p.1 p.2 block_number now).toList

/-- Synthesis of an opportunity from an external alert — handler
`handle_mev_alert` (mev_analyzer.py, lines 198-222): all fields are copied
verbatim from the message except `confidence := 0.8` and
`timestamp := datetime.now()`. -/
def alert_to_opportunity (msg : MEVAlert) (now : ℚ) : MEVOpportunity :=
  { pool_id := msg.pool_id
    mev_type := msg.mev_type
    estimated_value := msg.estimated_value
    risk_score := msg.risk_score
    confidence := 0.8
    timestamp := now
    block_number := msg.block_number
    transaction_hash := msg.transaction_hash }

/-- Correlation enhancement of one opportunity — method
`_metta_analyze_opportunity` (mev_analyzer.py, lines 469-497).
`detected` is `self.detected_opportunities` (the Ledger) at call time.
Rule 1 (lines 483-486) bumps `confidence` for low-risk high-value arbitrage;
rule 2 (lines 489-496) bumps `risk_score` when more than two Ledger entries
for the same pool lie within the trailing five-minute window. -/
def metta_analyze_opportunity (detected : List MEVOpportunity) (now : ℚ)
    (opportunity : MEVOpportunity) : MEVOpportunity :=
  let o1 :=
    if opportunity.mev_type = "arbitrage" ∧ opportunity.estimated_value > 2 ∧
        opportunity.risk_score < 0.5 then
      { opportunity with confidence := min (opportunity.confidence + 0.1) 1 }
    else
      opportunity
  let concurrent := detected.filter fun op =>
    op.pool_id = opportunity.pool_id ∧ op.timestamp > now - 300
  if concurrent.length > 2 then
    { o1 with risk_score := min (o1.risk_score + 0.2) 1 }
  else
    o1

/-- Batch correlation stage with explicit failure point — method
`_apply_metta_reasoning` (mev_analyzer.py, lines 443-467), inner loop.
The external MeTTa engine call for the `i`-th opportunity may fail; `fails i`
records whether it raises (before any field of that opportunity is written).
Python mutates each `MEVOpportunity` in place and the `except` branch at
line 467 returns the original list object, so after a failure at index `i`
the caller observes the already-enhanced prefix followed by the untouched
suffix — which is exactly what this recursion returns. -/
def apply_metta_go (detected : List MEVOpportunity) (now : ℚ) (fails : ℕ → Bool) :
    ℕ → List MEVOpportunity → List MEVOpportunity
  | _, [] => []
  | i, o :: rest =>
    if fails i then
      o :: rest
    else
      metta_analyze_opportunity detected now o ::
        apply_metta_go detected now fails (i + 1) rest

/-- Batch correlation stage — method `_apply_metta_reasoning`
(mev_analyzer.py, lines 443-467), entry point: processing starts at index 0. -/
def apply_metta_reasoning (detected : List MEVOpportunity) (now : ℚ)
    (fails : ℕ → Bool) (opportunities : List MEVOpportunity) :
    List MEVOpportunity :=
  apply_metta_go detected now fails 0 opportunities

/-- Modelled from the spec: the Ledger-insertion step of
`_process_opportunity`.  The method is invoked at mev_analyzer.py lines 185
and 222 but its definition is missing from the source tree; per spec §3 the
Ledger is an append-only ordered sequence bounded to `max_opportunities`
entries (default 100, line 116), with the oldest entry evicted first once
the bound is exceeded (FIFO eviction). -/
def ledger_insert (max_opportunities : ℕ) (ledger : List MEVOpportunity)
    (o : MEVOpportunity) : List MEVOpportunity :=
  let l := ledger ++ [o]
  if max_opportunities < l.length then l.drop (l.length - max_opportunities) else l

/-- Mutable agent state touched by one analysis cycle
(`MEVAnalyzerAgent.__init__`, mev_analyzer.py lines 113-130):
`last_analysis_time`, the Ledger `detected_opportunities`, and the
`opportunities_detected` statistics counter. -/
structure AnalyzerState where
  last_analysis_time : ℚ
  detected_opportunities : List MEVOpportunity
  opportunities_detected : ℕ
  deriving Repr, DecidableEq

/-- One tick of the analysis loop — handler `analyze_mev_opportunities`
(mev_analyzer.py, lines 157-196).  Returns the new state and whether a cycle
actually executed.  The guard at lines 171-173 skips the tick (no state
change) when less than `interval` has elapsed since `last_analysis_time`;
otherwise the cycle detects over the fetched `market_data`, optionally runs
the correlation stage against the pre-cycle Ledger, inserts each result via
`_process_opportunity` (spec-modelled `ledger_insert` with capacity 100),
updates the counter and sets `last_analysis_time := current_time`. -/
def analyze_tick (interval : ℚ) (metta_reasoning : Bool) (fails : ℕ → Bool)
    (market_data : List (String × MarketData)) (block_number : ℤ)
    (s : AnalyzerState) (current_time : ℚ) : AnalyzerState × Bool :=
  if current_time - s.last_analysis_time < interval then
    (s, false)
  else
    let ops := detect_mev_opportunities market_data block_number current_time
    let ops :=
      if metta_reasoning then
        apply_metta_reasoning s.detected_opportunities current_time fails ops
      else
        ops
    ({ last_analysis_time := current_time
       detected_opportunities := ops.foldl (ledger_insert 100) s.detected_opportunities
       opportunities_detected := s.opportunities_detected + ops.length }, true)

/-- The creation-time invariant on opportunities stated in spec §3:
bounded risk score and confidence, nonnegative estimated value. -/
def OppInvariant (o : MEVOpportunity) : Prop :=
  0 ≤ o.risk_score ∧ o.risk_score ≤ 1 ∧ 0 ≤ o.confidence ∧ o.confidence ≤ 1 ∧
    0 ≤ o.estimated_value

instance (o : MEVOpportunity) : Decidable (OppInvariant o) := by
  unfold OppInvariant
  infer_instance

/-- Stated preconditions on snapshot fields (spec §3): prices positive,
volume, liquidity, price impact and volatility nonnegative. -/
def SnapshotOK (d : MarketData) : Prop :=
  0 < d.token0_price ∧ 0 < d.token1_price ∧ 0 ≤ d.volume_24h ∧
    0 ≤ d.liquidity ∧ 0 ≤ d.price_impact ∧ 0 ≤ d.volatility

instance (d : MarketData) : Decidable (SnapshotOK d) := by
  unfold SnapshotOK
  infer_instance

/-- Helper: with a nonpositive `token1Price` the Python conditional expression
at line 362 sets the price ratio to `0`, so `deviation = |0 − 2000| / 2000 = 1`,
the `> 0.01` guard passes, and the detector fires with `riskScore = 1`. -/
theorem detect_arbitrage_of_nonpos (pool_id : String) (data : MarketData)
    (block_number : ℤ) (now : ℚ) (h : ¬ data.token1_price > 0) :
    detect_arbitrage pool_id data block_number now =
      some { pool_id := pool_id
             mev_type := "arbitrage"
             estimated_value := min (data.liquidity * 0.1) 10
             risk_score := 1
             confidence := 0.85
             timestamp := now
             block_number := block_number
             transaction_hash := none } := by
  have hdev : |(0 : ℚ) - 2000| / 2000 = 1 := by
    rw [zero_sub, abs_neg, abs_of_nonneg (by norm_num : (0:ℚ) ≤ 2000)]
    norm_num
  simp only [detect_arbitrage, if_neg h, hdev]
  norm_num

/-- C1 counterexample: a snapshot with `token1Price = 0` on which the
arbitrage detector does NOT return none — it fires (the claim that it always
returns none is false on the code). -/
theorem arbitrage_zero_price_counterexample :
    detect_arbitrage "pool" ⟨2000, 0, 0, 0, 0, 0⟩ 0 0 ≠ none := by
  norm_num [detect_arbitrage]
  exact fun hcon => Option.noConfusion hcon

/-- C1 (amended): for every snapshot with `token1Price = 0` the arbitrage
detector performs no division (the ratio is defined as `0`) and returns an
opportunity with `riskScore = 1`, `confidence = 0.85` and
`estimatedValue = min (liquidity * 0.1) 10`. -/
theorem arbitrage_zero_price_fires (pool_id : String) (data : MarketData)
    (block_number : ℤ) (now : ℚ) (h : data.token1_price = 0) :
    detect_arbitrage pool_id data block_number now =
      some { pool_id := pool_id
             mev_type := "arbitrage"
             estimated_value := min (data.liquidity * 0.1) 10
             risk_score := 1
             confidence := 0.85
             timestamp := now
             block_number := block_number
             transaction_hash := none } :=
  detect_arbitrage_of_nonpos pool_id data block_number now (by rw [h]; exact lt_irrefl 0)

/-- Witness for C1 (amended): evaluated at a concrete snapshot with
`token1Price = 0` and `liquidity = 50`. -/
theorem arbitrage_zero_price_fires_witness :
    (⟨2000, 0, 0, 50, 0, 0⟩ : MarketData).token1_price = 0 ∧
    detect_arbitrage "pool" ⟨2000, 0, 0, 50, 0, 0⟩ 3 7 =
      some { pool_id := "pool"
             mev_type := "arbitrage"
             estimated_value := min ((50 : ℚ) * 0.1) 10
             risk_score := 1
             confidence := 0.85
             timestamp := 7
             block_number := 3
             transaction_hash := none } :=
  ⟨rfl, arbitrage_zero_price_fires "pool" ⟨2000, 0, 0, 50, 0, 0⟩ 3 7 rfl⟩

/-- C10: for every snapshot with `token1Price ≤ 0` the arbitrage detector is
total (no division is performed, the ratio is defined as `0`, making the
deviation exactly `1`) and always returns an opportunity with `riskScore = 1`,
`confidence = 0.85` and `estimatedValue = min (liquidity * 0.1) 10`. -/
theorem arbitrage_nonpos_price_total (pool_id : String) (data : MarketData)
    (block_number : ℤ) (now : ℚ) (h : data.token1_price ≤ 0) :
    detect_arbitrage pool_id data block_number now =
      some { pool_id := pool_id
             mev_type := "arbitrage"
             estimated_value := min (data.liquidity * 0.1) 10
             risk_score := 1
             confidence := 0.85
             timestamp := now
             block_number := block_number
             transaction_hash := none } :=
  detect_arbitrage_of_nonpos pool_id data block_number now (not_lt.mpr h)

/-- Witness for C10: evaluated at a concrete snapshot with a negative
`token1Price`. -/
theorem arbitrage_nonpos_price_total_witness :
    (⟨2000, -1, 0, 50, 0, 0⟩ : MarketData).token1_price ≤ 0 ∧
    detect_arbitrage "pool" ⟨2000, -1, 0, 50, 0, 0⟩ 3 7 =
      some { pool_id := "pool"
             mev_type := "arbitrage"
             estimated_value := min ((50 : ℚ) * 0.1) 10
             risk_score := 1
             confidence := 0.85
             timestamp := 7
             block_number := 3
             transaction_hash := none } :=
  ⟨by norm_num, arbitrage_nonpos_price_total "pool" ⟨2000, -1, 0, 50, 0, 0⟩ 3 7 (by norm_num)⟩

/-- C5: for every snapshot with `token1Price > 0` the arbitrage detector
fires iff `deviation = |token0Price/token1Price − 2000| / 2000` is strictly
greater than `0.01` (so at exactly `0.01` it does not fire), and whenever it
fires the opportunity has `confidence = 0.85`,
`riskScore = min (deviation * 10) 1` and
`estimatedValue = min (liquidity * deviation * 0.1) 10`. -/
theorem arbitrage_fires_iff (pool_id : String) (data : MarketData)
    (block_number : ℤ) (now : ℚ) (hpos : data.token1_price > 0) :
    ((detect_arbitrage pool_id data block_number now).isSome ↔
      |data.token0_price / data.token1_price - 2000| / 2000 > 0.01) ∧
    ∀ o, detect_arbitrage pool_id data block_number now = some o →
      o.confidence = 0.85 ∧
      o.risk_score = min (|data.token0_price / data.token1_price - 2000| / 2000 * 10) 1 ∧
      o.estimated_value =
        min (data.liquidity * (|data.token0_price / data.token1_price - 2000| / 2000) * 0.1)
          10 := by
  simp only [detect_arbitrage, if_pos hpos]
  constructor
  · by_cases h : |data.token0_price / data.token1_price - 2000| / 2000 > 0.01
    · simp [h]
    · simp [h]
  · intro o ho
    by_cases h : |data.token0_price / data.token1_price - 2000| / 2000 > 0.01
    · rw [if_pos h] at ho
      obtain rfl := (Option.some.inj ho).symm
      exact ⟨rfl, rfl, rfl⟩
    · rw [if_neg h] at ho
      exact absurd ho (by simp)

/-- Witness for C5: evaluated at a concrete snapshot with ratio `2100/1`
(deviation `0.05 > 0.01`): the detector fires. -/
theorem arbitrage_fires_iff_witness :
    (⟨2100, 1, 0, 100, 0, 0⟩ : MarketData).token1_price > 0 ∧
    ((detect_arbitrage "pool" ⟨2100, 1, 0, 100, 0, 0⟩ 7 0).isSome ↔
      |(2100 : ℚ) / 1 - 2000| / 2000 > 0.01) :=
  ⟨by norm_num,
   (arbitrage_fires_iff "pool" ⟨2100, 1, 0, 100, 0, 0⟩ 7 0 (by norm_num)).1⟩

/-- C6: the sandwich detector fires iff `priceImpact > 0.3` AND
`liquidity < 1000000` hold simultaneously; `priceImpact = 0.31` with
`liquidity = 999999` fires while `priceImpact = 0.3` with the same liquidity
does not; and whenever it fires the confidence is exactly `0.75`. -/
theorem sandwich_fires_iff (pool_id : String) (data : MarketData)
    (block_number : ℤ) (now : ℚ) :
    ((detect_sandwich_attack pool_id data block_number now).isSome ↔
      data.price_impact > 0.3 ∧ data.liquidity < 1000000) ∧
    (∀ o, detect_sandwich_attack pool_id data block_number now = some o →
      o.confidence = 0.75) ∧
    (detect_sandwich_attack "pool" ⟨1, 1, 0, 999999, 0.31, 0⟩ 0 0).isSome ∧
    detect_sandwich_attack "pool" ⟨1, 1, 0, 999999, 0.3, 0⟩ 0 0 = none := by
  refine ⟨?_, ?_, by norm_num [detect_sandwich_attack], by norm_num [detect_sandwich_attack]⟩
  · by_cases h : data.price_impact > 0.3 ∧ data.liquidity < 1000000
    · simp [detect_sandwich_attack, h]
    · simp [detect_sandwich_attack, h]
  · intro o ho
    by_cases h : data.price_impact > 0.3 ∧ data.liquidity < 1000000
    · rw [detect_sandwich_attack, if_pos h] at ho
      obtain rfl := (Option.some.inj ho).symm
      rfl
    · rw [detect_sandwich_attack, if_neg h] at ho
      exact absurd ho (by simp)

/-- Witness for C6: the firing boundary instance, with its concrete output
record and confidence obtained by applying the theorem. -/
theorem sandwich_fires_iff_witness :
    ((0.31 : ℚ) > 0.3 ∧ (999999 : ℚ) < 1000000) ∧
    (detect_sandwich_attack "pool" ⟨1, 1, 0, 999999, 0.31, 0⟩ 0 0).isSome ∧
    detect_sandwich_attack "pool" ⟨1, 1, 0, 999999, 0.31, 0⟩ 0 0 =
      some { pool_id := "pool"
             mev_type := "sandwich"
             estimated_value := 0
             risk_score := 12100001 / 20000000
             confidence := 0.75
             timestamp := 0
             block_number := 0
             transaction_hash := none } ∧
    (0.75 : ℚ) =
      ({ pool_id := "pool"
         mev_type := "sandwich"
         estimated_value := 0
         risk_score := 12100001 / 20000000
         confidence := 0.75
         timestamp := 0
         block_number := 0
         transaction_hash := none } : MEVOpportunity).confidence :=
  ⟨by norm_num,
   (sandwich_fires_iff "pool" ⟨1, 1, 0, 999999, 0.31, 0⟩ 0 0).1.mpr (by norm_num),
   by norm_num [detect_sandwich_attack, min_def],
   ((sandwich_fires_iff "pool" ⟨1, 1, 0, 999999, 0.31, 0⟩ 0 0).2.1 _
     (by norm_num [detect_sandwich_attack, min_def])).symm⟩

/-- C7: estimated value is always clamped to the kind's cap — `10` for
arbitrage, `5` for sandwich, `3` for liquidation — whatever the magnitudes of
the snapshot fields. -/
theorem estimated_value_capped (pool_id : String) (data : MarketData)
    (block_number : ℤ) (now : ℚ) (o : MEVOpportunity) :
    (detect_arbitrage pool_id data block_number now = some o →
      o.estimated_value ≤ 10) ∧
    (detect_sandwich_attack pool_id data block_number now = some o →
      o.estimated_value ≤ 5) ∧
    (detect_liquidation pool_id data block_number now = some o →
      o.estimated_value ≤ 3) := by
  refine ⟨fun ho => ?_, fun ho => ?_, fun ho => ?_⟩
  · rw [detect_arbitrage] at ho
    split at ho <;> split at ho <;>
      first
        | exact Option.noConfusion ho
        | (obtain rfl := (Option.some.inj ho).symm; exact min_le_right _ _)
  · rw [detect_sandwich_attack] at ho
    split at ho
    · obtain rfl := (Option.some.inj ho).symm
      exact min_le_right _ _
    · exact absurd ho (by simp)
  · rw [detect_liquidation] at ho
    split at ho
    · obtain rfl := (Option.some.inj ho).symm
      exact min_le_right _ _
    · exact absurd ho (by simp)

/-- Witness for C7: a concrete arbitrage detection (huge liquidity) whose
estimated value is clamped to `10`, obtained by applying the cap theorem. -/
theorem estimated_value_capped_witness :
    detect_arbitrage "pool" ⟨2100, 1, 0, 1000000000, 0, 0⟩ 7 0 =
      some { pool_id := "pool"
             mev_type := "arbitrage"
             estimated_value := 10
             risk_score := 1 / 2
             confidence := 0.85
             timestamp := 0
             block_number := 7
             transaction_hash := none } ∧
    ({ pool_id := "pool"
       mev_type := "arbitrage"
       estimated_value := 10
       risk_score := 1 / 2
       confidence := 0.85
       timestamp := 0
       block_number := 7
       transaction_hash := none } : MEVOpportunity).estimated_value ≤ 10 :=
  ⟨by norm_num [detect_arbitrage, min_def, abs_of_nonneg],
   (estimated_value_capped "pool" ⟨2100, 1, 0, 1000000000, 0, 0⟩ 7 0 _).1
     (by norm_num [detect_arbitrage, min_def, abs_of_nonneg])⟩

/-- C2 counterexample: an external alert with `riskScore = 2` is synthesized
into an opportunity whose `riskScore` is `2` — the creation-time invariant
`riskScore ≤ 1` does NOT hold on the external-alert path (`handle_mev_alert`
copies the message's risk score verbatim, without clamping). -/
theorem opportunity_invariant_counterexample :
    (alert_to_opportunity ⟨"pool", "arbitrage", 1, 2, 0, none⟩ 0).risk_score = 2 ∧
    ¬ OppInvariant (alert_to_opportunity ⟨"pool", "arbitrage", 1, 2, 0, none⟩ 0) := by
  constructor
  · rfl
  · norm_num [OppInvariant, alert_to_opportunity]

/-- C2 (amended): every opportunity produced by the three detectors (under
the stated snapshot preconditions) or adjusted by the correlation enhancer
satisfies `0 ≤ riskScore ≤ 1`, `0 ≤ confidence ≤ 1`, `estimatedValue ≥ 0`;
an opportunity synthesized from an external alert always has
`confidence = 0.8 ∈ [0,1]`, but inherits `riskScore` and `estimatedValue`
verbatim from the message, so it satisfies the invariant only when the
alert's own fields already do. -/
theorem opportunity_invariant_amended :
    (∀ (pool_id : String) (data : MarketData) (block_number : ℤ) (now : ℚ)
        (o : MEVOpportunity), SnapshotOK data →
      detect_arbitrage pool_id data block_number now = some o → OppInvariant o) ∧
    (∀ (pool_id : String) (data : MarketData) (block_number : ℤ) (now : ℚ)
        (o : MEVOpportunity), SnapshotOK data →
      detect_sandwich_attack pool_id data block_number now = some o → OppInvariant o) ∧
    (∀ (pool_id : String) (data : MarketData) (block_number : ℤ) (now : ℚ)
        (o : MEVOpportunity), SnapshotOK data →
      detect_liquidation pool_id data block_number now = some o → OppInvariant o) ∧
    (∀ (detected : List MEVOpportunity) (now : ℚ) (o : MEVOpportunity),
      OppInvariant o → OppInvariant (metta_analyze_opportunity detected now o)) ∧
    (∀ (msg : MEVAlert) (now : ℚ), 0 ≤ msg.risk_score → msg.risk_score ≤ 1 →
      0 ≤ msg.estimated_value → OppInvariant (alert_to_opportunity msg now)) := by
  refine ⟨?_, ?_, ?_, ?_, ?_⟩
  · intro pool_id data block_number now o hOK ho
    obtain ⟨-, -, -, hliq, -, -⟩ := hOK
    rw [detect_arbitrage] at ho
    split at ho <;> split at ho <;>
      first
        | exact Option.noConfusion ho
        | (obtain rfl := (Option.some.inj ho).symm
           refine ⟨le_min (by positivity) zero_le_one, min_le_right _ _,
             by norm_num, by norm_num,
             le_min (mul_nonneg (mul_nonneg hliq (by positivity)) (by norm_num))
               (by norm_num)⟩)
  · intro pool_id data block_number now o hOK ho
    obtain ⟨-, -, hvol, -, himp, -⟩ := hOK
    rw [detect_sandwich_attack] at ho
    split at ho
    case isTrue h =>
      obtain rfl := (Option.some.inj ho).symm
      obtain ⟨h1, h2⟩ := h
      refine ⟨le_min (by linarith) zero_le_one, min_le_right _ _,
        by norm_num, by norm_num,
        le_min (mul_nonneg (mul_nonneg hvol (by norm_num)) himp) (by norm_num)⟩
    case isFalse h => exact Option.noConfusion ho
  · intro pool_id data block_number now o hOK ho
    obtain ⟨-, -, -, -, -, hvola⟩ := hOK
    rw [detect_liquidation] at ho
    split at ho
    case isTrue h =>
      obtain rfl := (Option.some.inj ho).symm
      exact ⟨le_min hvola zero_le_one, min_le_right _ _, by norm_num, by norm_num,
        le_min (mul_nonneg hvola (by norm_num)) (by norm_num)⟩
    case isFalse h => exact Option.noConfusion ho
  · intro detected now o hInv
    have hA : ∀ p : MEVOpportunity, OppInvariant p →
        OppInvariant { p with confidence := min (p.confidence + 0.1) 1 } := by
      intro p hp
      obtain ⟨a, b, c, -, e⟩ := hp
      exact ⟨a, b, le_min (by linarith) zero_le_one, min_le_right _ _, e⟩
    have hB : ∀ p : MEVOpportunity, OppInvariant p →
        OppInvariant { p with risk_score := min (p.risk_score + 0.2) 1 } := by
      intro p hp
      obtain ⟨a, -, c, d, e⟩ := hp
      exact ⟨le_min (by linarith) zero_le_one, min_le_right _ _, c, d, e⟩
    simp only [metta_analyze_opportunity]
    set o1 := if o.mev_type = "arbitrage" ∧ o.estimated_value > 2 ∧ o.risk_score < 0.5
      then { o with confidence := min (o.confidence + 0.1) 1 } else o with ho1
    have hO1 : OppInvariant o1 := by
      rw [ho1]
      split
      · exact hA o hInv
      · exact hInv
    split
    · exact hB o1 hO1
    · exact hO1
  · intro msg now h0 h1 h2
    exact ⟨h0, h1, by norm_num [alert_to_opportunity], by norm_num [alert_to_opportunity], h2⟩

/-- Witness for C2 (amended): a concrete well-formed external alert whose
synthesized opportunity satisfies the invariant. -/
theorem opportunity_invariant_amended_witness :
    ((0 : ℚ) ≤ (⟨"pool", "sandwich", 1, 0.5, 0, none⟩ : MEVAlert).risk_score ∧
      (⟨"pool", "sandwich", 1, 0.5, 0, none⟩ : MEVAlert).risk_score ≤ 1 ∧
      (0 : ℚ) ≤ (⟨"pool", "sandwich", 1, 0.5, 0, none⟩ : MEVAlert).estimated_value) ∧
    OppInvariant (alert_to_opportunity ⟨"pool", "sandwich", 1, 0.5, 0, none⟩ 9) :=
  ⟨⟨by norm_num, by norm_num, by norm_num⟩,
   opportunity_invariant_amended.2.2.2.2 ⟨"pool", "sandwich", 1, 0.5, 0, none⟩ 9
     (by norm_num) (by norm_num) (by norm_num)⟩

/-- C8: correlation rule 2 — the enhanced risk score is
`min (riskScore + 0.2) 1` exactly when strictly more than two stored
opportunities share the pool and lie inside the trailing 5-minute window,
and is the unchanged `riskScore` otherwise (rule 1 never touches the risk
score). -/
theorem correlation_rule2 (detected : List MEVOpportunity) (now : ℚ)
    (o : MEVOpportunity) :
    (metta_analyze_opportunity detected now o).risk_score =
      if 2 < (detected.filter fun op =>
          op.pool_id = o.pool_id ∧ op.timestamp > now - 300).length then
        min (o.risk_score + 0.2) 1
      else
        o.risk_score := by
  rw [metta_analyze_opportunity]
  split <;> split <;> simp_all

/-- Witness for C8: three prior same-pool in-window entries push the risk
score of a new opportunity from `0.5` to `0.7`. -/
theorem correlation_rule2_witness :
    (metta_analyze_opportunity
      [⟨"pool", "sandwich", 1, 0.5, 0.75, 100, 0, none⟩,
       ⟨"pool", "sandwich", 1, 0.5, 0.75, 110, 0, none⟩,
       ⟨"pool", "liquidation", 1, 0.5, 0.65, 120, 0, none⟩] 200
      ⟨"pool", "sandwich", 1, 0.5, 0.75, 200, 0, none⟩).risk_score = 0.7 := by
  rw [correlation_rule2]
  norm_num [List.filter]

/-- Helper: structure of the enhancement loop — the result is always the
enhancement of some prefix followed by the untouched suffix, and a failure on
the very first processed opportunity leaves the whole batch untouched. -/
theorem apply_metta_go_spec (detected : List MEVOpportunity) (now : ℚ)
    (fails : ℕ → Bool) :
    ∀ (ops : List MEVOpportunity) (i : ℕ),
      ∃ k, k ≤ ops.length ∧
        apply_metta_go detected now fails i ops =
          (ops.take k).map (metta_analyze_opportunity detected now) ++ ops.drop k ∧
        (fails i = true → apply_metta_go detected now fails i ops = ops) := by
  intro ops
  induction ops with
  | nil =>
    intro i
    exact ⟨0, Nat.le_refl 0, by simp [apply_metta_go], fun _ => rfl⟩
  | cons o rest ih =>
    intro i
    by_cases hf : fails i = true
    · refine ⟨0, Nat.zero_le _, ?_, fun _ => ?_⟩
      · simp [apply_metta_go, hf]
      · simp [apply_metta_go, hf]
    · obtain ⟨k, hk, hrepr, -⟩ := ih (i + 1)
      refine ⟨k + 1, Nat.succ_le_succ hk, ?_, fun h => absurd h hf⟩
      simp [apply_metta_go, hf, hrepr]

/-- C4 counterexample: with a batch of two opportunities where enhancement of
the second one fails, the caught exception returns the original list — but
its first element was already mutated in place (rule 1 raised its confidence
from `0.85` to `0.95`), so the batch is NOT passed through with all fields
unmodified. -/
theorem enhancement_failure_counterexample :
    (fun i : ℕ => decide (i = 1)) 1 = true ∧
    (1 : ℕ) < ([⟨"pool", "arbitrage", 3, 0.3, 0.85, 0, 0, none⟩,
      ⟨"pool", "sandwich", 1, 0.5, 0.75, 0, 0, none⟩] : List MEVOpportunity).length ∧
    apply_metta_reasoning [] 0 (fun i => decide (i = 1))
        [⟨"pool", "arbitrage", 3, 0.3, 0.85, 0, 0, none⟩,
         ⟨"pool", "sandwich", 1, 0.5, 0.75, 0, 0, none⟩] ≠
      [⟨"pool", "arbitrage", 3, 0.3, 0.85, 0, 0, none⟩,
       ⟨"pool", "sandwich", 1, 0.5, 0.75, 0, 0, none⟩] ∧
    (apply_metta_reasoning [] 0 (fun i => decide (i = 1))
        [⟨"pool", "arbitrage", 3, 0.3, 0.85, 0, 0, none⟩,
         ⟨"pool", "sandwich", 1, 0.5, 0.75, 0, 0, none⟩]).map
      (fun o => o.confidence) = [0.95, 0.75] := by
  refine ⟨rfl, by norm_num, ?_, ?_⟩ <;>
    norm_num [apply_metta_reasoning, apply_metta_go, metta_analyze_opportunity,
      List.filter]

/-- C4 (amended): if the correlation/enhancement stage fails, no opportunity
is dropped — the returned batch has the same length, and is the enhancement
of some prefix followed by the remaining opportunities exactly as the
detector set produced them.  Opportunities processed before the failure
point keep their enhanced (in-place mutated) fields; only a failure before
any processing passes the whole batch through unmodified. -/
theorem enhancement_failure_passthrough (detected : List MEVOpportunity)
    (now : ℚ) (fails : ℕ → Bool) (ops : List MEVOpportunity) :
    (apply_metta_reasoning detected now fails ops).length = ops.length ∧
    (∃ k, k ≤ ops.length ∧
      apply_metta_reasoning detected now fails ops =
        (ops.take k).map (metta_analyze_opportunity detected now) ++ ops.drop k) ∧
    (fails 0 = true → apply_metta_reasoning detected now fails ops = ops) := by
  obtain ⟨k, hk, hrepr, hfail⟩ := apply_metta_go_spec detected now fails ops 0
  refine ⟨?_, ⟨k, hk, hrepr⟩, hfail⟩
  rw [apply_metta_reasoning, hrepr]
  simp [List.length_take, List.length_drop]
  omega

/-- Witness for C4 (amended): a failure at index 0 passes a one-element
batch through unmodified. -/
theorem enhancement_failure_passthrough_witness :
    (fun _ : ℕ => true) 0 = true ∧
    apply_metta_reasoning [] 0 (fun _ => true)
        [⟨"pool", "arbitrage", 3, 0.3, 0.85, 0, 0, none⟩] =
      [⟨"pool", "arbitrage", 3, 0.3, 0.85, 0, 0, none⟩] :=
  ⟨rfl,
   (enhancement_failure_passthrough [] 0 (fun _ => true)
     [⟨"pool", "arbitrage", 3, 0.3, 0.85, 0, 0, none⟩]).2.2 rfl⟩

/-- Helper: one ledger insertion preserves the capacity bound. -/
theorem ledger_insert_length_le (m : ℕ) (l : List MEVOpportunity)
    (o : MEVOpportunity) : (ledger_insert m l o).length ≤ m := by
  simp only [ledger_insert]
  split
  · simp
    omega
  · simp only [not_lt] at *
    omega

/-- C3: for every sequence of insertions (cycle appends and external-alert
inserts both go through the same `_process_opportunity` path), the Ledger
never holds more than the configured maximum `m` entries; an insertion below
capacity is a plain append, and an insertion at capacity evicts exactly the
oldest (front) entry — FIFO. -/
theorem ledger_bounded_fifo (m : ℕ) (init : List MEVOpportunity)
    (os : List MEVOpportunity) (hinit : init.length ≤ m) (hm : 0 < m) :
    (os.foldl (ledger_insert m) init).length ≤ m ∧
    (∀ (l : List MEVOpportunity) (o : MEVOpportunity), l.length < m →
      ledger_insert m l o = l ++ [o]) ∧
    (∀ (l : List MEVOpportunity) (o : MEVOpportunity), l.length = m →
      ledger_insert m l o = l.drop 1 ++ [o]) := by
  refine ⟨?_, ?_, ?_⟩
  · induction os generalizing init with
    | nil => exact hinit
    | cons o rest ih => exact ih _ (ledger_insert_length_le m init o)
  · intro l o h
    simp only [ledger_insert]
    rw [if_neg (by simp; omega)]
  · intro l o h
    cases l with
    | nil => simp at h; omega
    | cons a t =>
      simp only [ledger_insert]
      rw [if_pos (by simp at h ⊢; omega)]
      have hidx : ((a :: t) ++ [o]).length - m = 1 := by
        simp at h ⊢
        omega
      rw [hidx]
      simp

/-- Witness for C3: one insertion into an empty Ledger of capacity 100 keeps
the bound. -/
theorem ledger_bounded_fifo_witness :
    ([] : List MEVOpportunity).length ≤ 100 ∧ (0 : ℕ) < 100 ∧
    (([⟨"pool", "arbitrage", 1, 0.5, 0.85, 0, 0, none⟩] :
        List MEVOpportunity).foldl (ledger_insert 100) []).length ≤ 100 :=
  ⟨by norm_num, by norm_num,
   (ledger_bounded_fifo 100 [] [⟨"pool", "arbitrage", 1, 0.5, 0.85, 0, 0, none⟩]
     (by norm_num) (by norm_num)).1⟩

/-- C9 counterexample: two ticks less than the interval apart on a state
whose last cycle is recent — BOTH ticks are skipped, so zero (not exactly
one) cycles execute. -/
theorem scheduler_counterexample :
    ((21 : ℚ) / 2 - 51 / 5 < 1) ∧
    (analyze_tick 1 true (fun _ => false) [] 0 ⟨10, [], 0⟩ (51 / 5)).2 = false ∧
    (analyze_tick 1 true (fun _ => false) [] 0
      (analyze_tick 1 true (fun _ => false) [] 0 ⟨10, [], 0⟩ (51 / 5)).1
      (21 / 2)).2 = false := by
  refine ⟨by norm_num, ?_, ?_⟩ <;> norm_num [analyze_tick]

/-- C9 (amended): for two ticks arriving less than the configured interval
apart, at most one cycle executes; if the first tick executes a cycle, the
second tick is a no-op returning the state unchanged.  (If the first tick is
itself skipped — not yet due — zero cycles may execute, refuting the original
"exactly one".) -/
theorem scheduler_at_most_one_cycle (interval : ℚ) (metta : Bool)
    (fails : ℕ → Bool) (market_data : List (String × MarketData))
    (block_number : ℤ) (s : AnalyzerState) (t1 t2 : ℚ)
    (hclose : t2 - t1 < interval) :
    ((analyze_tick interval metta fails market_data block_number s t1).2 = true →
      analyze_tick interval metta fails market_data block_number
          (analyze_tick interval metta fails market_data block_number s t1).1 t2 =
        ((analyze_tick interval metta fails market_data block_number s t1).1, false)) ∧
    ¬ ((analyze_tick interval metta fails market_data block_number s t1).2 = true ∧
      (analyze_tick interval metta fails market_data block_number
        (analyze_tick interval metta fails market_data block_number s t1).1 t2).2 =
        true) := by
  have hskip : ∀ (s' : AnalyzerState) (t : ℚ), t - s'.last_analysis_time < interval →
      analyze_tick interval metta fails market_data block_number s' t = (s', false) := by
    intro s' t h
    rw [analyze_tick, if_pos h]
  by_cases hg : t1 - s.last_analysis_time < interval
  · have h1 : (analyze_tick interval metta fails market_data block_number s t1).2 = false := by
      rw [hskip s t1 hg]
    exact ⟨fun h => absurd h (by rw [h1]; exact Bool.false_ne_true),
      fun h => absurd h.1 (by rw [h1]; exact Bool.false_ne_true)⟩
  · have h1 : (analyze_tick interval metta fails market_data block_number s t1).1.last_analysis_time = t1 := by
      rw [analyze_tick, if_neg hg]
    have h2 : analyze_tick interval metta fails market_data block_number
        (analyze_tick interval metta fails market_data block_number s t1).1 t2 =
        ((analyze_tick interval metta fails market_data block_number s t1).1, false) :=
      hskip _ t2 (by rw [h1]; exact hclose)
    refine ⟨fun _ => h2, fun hcon => ?_⟩
    rw [h2] at hcon
    exact Bool.false_ne_true hcon.2

/-- Witness for C9 (amended): a due first tick executes; the second tick half
a second later is a no-op. -/
theorem scheduler_at_most_one_cycle_witness :
    ((11 : ℚ) / 2 - 5 < 1) ∧
    (analyze_tick 1 false (fun _ => false) [] 0 ⟨0, [], 0⟩ 5).2 = true ∧
    analyze_tick 1 false (fun _ => false) [] 0
        (analyze_tick 1 false (fun _ => false) [] 0 ⟨0, [], 0⟩ 5).1 (11 / 2) =
      ((analyze_tick 1 false (fun _ => false) [] 0 ⟨0, [], 0⟩ 5).1, false) :=
  ⟨by norm_num, by norm_num [analyze_tick],
   (scheduler_at_most_one_cycle 1 false (fun _ => false) [] 0 ⟨0, [], 0⟩ 5 (11 / 2)
     (by norm_num)).1 (by norm_num [analyze_tick])⟩

end MEVShield
